import Mathlib

/-!
# Verification of the `MusicQueue` playback session orchestrator

A shallow embedding of `src/structs/MusicQueue.ts` (evobot). The session's
mutable fields become a `Session` record; each event handler / method becomes
a pure function from `Session` to `Session × List Effect`, where `Effect`
records the calls made on external collaborators (the audio player, the voice
connection, the text channel, the reaction being removed). Asynchronous
suspension points (the `await next.makeResource()` inside `processQueue`, the
`await entersState(..., Ready, 20s)` inside the connection handler) are
modelled by splitting the operation into a `Begin` phase (run synchronously up
to the suspension) and a `Resume` phase (run after the awaited promise
settles), so that the interleaving of a second invocation during the await can
be expressed.  Outcomes of external fallible calls (`makeResource` success,
reaching `Ready` before the 20s deadline, `connection.destroy()` raising) are
supplied as oracle parameters.

The element type `α` stands for `Song`; a successfully created audio resource
is identified by the song it was made from (its metadata), so
`resource : Option α`.
-/

namespace MusicQueue

/-- Player status, mirroring `voice.AudioPlayerStatus`. -/
inductive PlayerStatus where
  | Idle
  | Buffering
  | Playing
  | Paused
  | AutoPaused
  deriving DecidableEq, Repr

/-- Connection status, mirroring `voice.VoiceConnectionStatus`. -/
inductive ConnStatus where
  | Signalling
  | Connecting
  | Ready
  | Disconnected
  | Destroyed
  deriving DecidableEq, Repr

/-- Disconnect reason, mirroring `voice.VoiceConnectionDisconnectReason`.
Only `WebSocketClose` is distinguished by the code; the rest are collapsed. -/
inductive DisconnectReason where
  | WebSocketClose
  | Other
  deriving DecidableEq, Repr

/-- Calls made on external collaborators, in program order. -/
inductive Effect (α : Type) where
  /-- `await next.makeResource()` was invoked for this song. -/
  | attemptResource (song : α)
  /-- `this.player.play(resource)` for the resource made from this song. -/
  | play (song : α)
  /-- `resource.volume?.setVolumeLogarithmic g` with argument `g`. -/
  | setVolumeLog (g : ℚ)
  /-- `console.error(...)` on a caught error. -/
  | logError
  /-- `this.player.stop()`. -/
  | stopPlayer
  /-- the `play.queueEnded` message sent by `stop()` when not pruning. -/
  | sendQueueEnded
  /-- `await wait(ms)`. -/
  | wait (ms : ℕ)
  /-- `this.connection.rejoin()`. -/
  | rejoin
  /-- `this.connection.destroy()`. -/
  | destroyConn
  /-- `await entersState(this.connection, Ready, 20_000)`. -/
  | awaitReady
  /-- a localized notification sent on the text channel. -/
  | sendMessage
  /-- `reaction.users.remove(user)`. -/
  | removeReaction
  /-- `clearTimeout(this.waitTimeout)`. -/
  | clearTimeout
  deriving DecidableEq, Repr

/-- The session's mutable state: the fields of class `MusicQueue` together
with a mirror of the external player's status (the handlers read
`this.player.state.status`, and `player.play` / `player.stop` change it).
`pruning` mirrors the read-only `config.PRUNING` flag. -/
structure Session (α : Type) where
  songs : List α
  volume : ℤ
  loop : Bool
  muted : Bool
  queueLock : Bool
  readyLock : Bool
  resource : Option α
  playerStatus : PlayerStatus
  pruning : Bool
  deriving DecidableEq, Repr

/-- `stop()` (lines 101–108): disable loop, clear the queue, halt the player,
and send the end-of-queue notification unless pruning is configured. -/
def stop {α : Type} (s : Session α) : Session α × List (Effect α) :=
  ({ s with loop := false, songs := [], playerStatus := .Idle },
   .stopPlayer :: if s.pruning then [] else [.sendQueueEnded])

/-- One step of `processQueue` (lines 110–136).  `oracle d` tells whether the
`await next.makeResource()` performed at recursion depth `d` succeeds.  `fuel`
bounds the recursion of the `catch` branch (`return this.processQueue()`);
`none` means the fuel ran out before the code returned.  The recursive call in
the `catch` branch runs before the `finally` releases `queueLock`, so it is
evaluated on the state with `queueLock = true` and the `finally`'s
`queueLock = false` assignment is applied to whatever state it leaves (the
recursive call provably changes nothing, since the guard sees the held lock
and it returns synchronously before the `finally` runs). -/
def processQueueAux {α : Type} (oracle : ℕ → Bool) :
    ℕ → ℕ → Session α → Option (Session α × List (Effect α))
  | 0, _, _ => none
  | fuel + 1, d, s =>
    if s.queueLock ∨ s.playerStatus ≠ .Idle then
      some (s, [])
    else
      match s.songs with
      | [] => some (stop s)
      | next :: _ =>
        let s1 := { s with queueLock := true }
        if oracle d then
          -- `this.resource = resource; this.player.play(this.resource);
          --  this.resource.volume?.setVolumeLogarithmic(this.volume / 100)`
          let s2 := { s1 with resource := some next, playerStatus := .Playing }
          some ({ s2 with queueLock := false },
                [.attemptResource next, .play next,
                 .setVolumeLog ((s.volume : ℚ) / 100)])
        else
          match processQueueAux oracle fuel (d + 1) s1 with
          | none => none
          | some (s3, effs) =>
            some ({ s3 with queueLock := false },
                  .attemptResource next :: .logError :: effs)

/-- `processQueue()` with the adequate fuel: fuel 2 always suffices because
the only recursive call runs with the lock held (`processQueueAux_two_isSome`
below; the `getD` default is never taken). -/
def processQueue {α : Type} (oracle : ℕ → Bool) (s : Session α) :
    Session α × List (Effect α) :=
  (processQueueAux oracle 2 0 s).getD (s, [])

/-- Result of running `processQueue` synchronously up to its first suspension
point (the `await next.makeResource()` on line 124). -/
inductive PQBegin (α : Type) where
  /-- the invocation returned without suspending. -/
  | done (s : Session α) (effs : List (Effect α))
  /-- the invocation is suspended awaiting `next.makeResource()`, with
  `queueLock` already set (line 119). -/
  | suspended (s : Session α) (next : α)
  deriving DecidableEq, Repr

/-- The synchronous prefix of `processQueue` (lines 111–124): the guard, the
empty-queue `stop`, setting `queueLock`, and reading `songs[0]`. -/
def processQueueBegin {α : Type} (s : Session α) : PQBegin α :=
  if s.queueLock ∨ s.playerStatus ≠ .Idle then
    .done s []
  else
    match s.songs with
    | [] => .done (stop s).1 (stop s).2
    | next :: _ => .suspended { s with queueLock := true } next

/-- The continuation of `processQueue` after `await next.makeResource()`
settles (lines 124–135): on success store the resource, `play`, apply the
gain; on failure log and re-invoke `processQueue` (while `queueLock` is still
held); in both cases the `finally` then clears `queueLock`. -/
def processQueueResume {α : Type} (oracle : ℕ → Bool) (s1 : Session α)
    (next : α) (ok : Bool) : Session α × List (Effect α) :=
  if ok then
    let s2 := { s1 with resource := some next, playerStatus := .Playing }
    ({ s2 with queueLock := false },
     [.play next, .setVolumeLog ((s1.volume : ℚ) / 100)])
  else
    let r := processQueue oracle s1
    ({ r.1 with queueLock := false }, .logError :: r.2)

/-- A schedule in which a second `processQueue` trigger arrives at the first
invocation's suspension point, runs to completion (the event loop is free
while the first awaits `makeResource`), and then the first resumes.  If the
first invocation never suspends, the second simply runs after it. -/
def twoInvocationRun {α : Type} (oracle oracle2 : ℕ → Bool) (s : Session α) :
    Session α × List (Effect α) :=
  match processQueueBegin s with
  | .done s' effs =>
    let r := processQueue oracle2 s'
    (r.1, effs ++ r.2)
  | .suspended s1 next =>
    let r2 := processQueue oracle2 s1
    let r1 := processQueueResume oracle r2.1 next (oracle 0)
    (r1.1, .attemptResource next :: (r2.2 ++ r1.2))

/-- `true` exactly on `Effect.play` effects. -/
def Effect.isPlay {α : Type} : Effect α → Bool
  | .play _ => true
  | _ => false

/-- `true` exactly on `Effect.attemptResource` effects. -/
def Effect.isAttempt {α : Type} : Effect α → Bool
  | .attemptResource _ => true
  | _ => false

/-- `true` exactly on the `Effect.destroyConn` effect. -/
def Effect.isDestroy {α : Type} : Effect α → Bool
  | .destroyConn => true
  | _ => false

/-- The player `stateChange` handler (lines 70–82).  The session's
`playerStatus` mirror is first updated to the new status the player reported.
On a non-Idle → Idle transition: rotate the queue head to the tail when `loop`
is on and the queue is non-empty (`songs.push(songs.shift()!)`), otherwise
drop the head (`songs.shift()`); then trigger `processQueue` if the queue is
non-empty or a resource is still held.  On Buffering → Playing the handler
only sends the now-playing message (`sendPlayingMessage`, modelled as an
effect). -/
def onPlayerStateChange {α : Type} (oracle : ℕ → Bool)
    (old new : PlayerStatus) (s : Session α) :
    Session α × List (Effect α) :=
  let s0 := { s with playerStatus := new }
  if old ≠ .Idle ∧ new = .Idle then
    let s1 :=
      if s0.loop && !s0.songs.isEmpty then
        { s0 with songs := s0.songs.tail ++ s0.songs.take 1 }
      else
        { s0 with songs := s0.songs.tail }
    if !s1.songs.isEmpty || s1.resource.isSome then
      processQueue oracle s1
    else
      (s1, [])
  else if old = .Buffering ∧ new = .Playing then
    (s0, [.sendMessage])
  else
    (s0, [])

/-- One normal track completion: the player transitions Playing → Idle and the
`stateChange` handler runs with every `makeResource` attempt succeeding. -/
def completionStep {α : Type} (s : Session α) : Session α :=
  (onPlayerStateChange (fun _ => true) .Playing .Idle s).1

/-- The player `error` handler (lines 84–92): log, rotate or drop the head
exactly as the Idle path does, and re-trigger `processQueue` unconditionally. -/
def onPlayerError {α : Type} (oracle : ℕ → Bool) (s : Session α) :
    Session α × List (Effect α) :=
  let s1 :=
    if s.loop && !s.songs.isEmpty then
      { s with songs := s.songs.tail ++ s.songs.take 1 }
    else
      { s with songs := s.songs.tail }
  let r := processQueue oracle s1
  (r.1, .logError :: r.2)

/-- `enqueue(...songs)` (lines 95–99): cancel the pending auto-stop timer,
append to the queue, trigger `processQueue`. -/
def enqueue {α : Type} (oracle : ℕ → Bool) (newSongs : List α)
    (s : Session α) : Session α × List (Effect α) :=
  let r := processQueue oracle { s with songs := s.songs ++ newSongs }
  (r.1, .clearTimeout :: r.2)

/-- The `Disconnected` branch of the connection `stateChange` handler
(lines 37–50).  `rejoinAttempts` lives on the external connection and is
passed in.  The `try { stop } catch { log; stop }` wrapper is modelled as a
single `stop` (the model's `stop` cannot raise). -/
def onConnDisconnected {α : Type} (reason : DisconnectReason)
    (closeCode : ℕ) (rejoinAttempts : ℕ) (s : Session α) :
    Session α × List (Effect α) :=
  if reason = .WebSocketClose ∧ closeCode = 4014 then
    stop s
  else if rejoinAttempts < 5 then
    (s, [.wait ((rejoinAttempts + 1) * 5000), .rejoin])
  else
    (s, [.destroyConn])

/-- The ready-wait entry (lines 51–55): on a transition into `Connecting` or
`Signalling` with `readyLock` not held, set `readyLock` and suspend on
`entersState(connection, Ready, 20_000)`; otherwise do nothing.  Returns the
suspended state when the wait is entered. -/
def connReadyWaitBegin {α : Type} (newStatus : ConnStatus) (s : Session α) :
    Option (Session α) :=
  if ¬s.readyLock ∧ (newStatus = .Connecting ∨ newStatus = .Signalling) then
    some { s with readyLock := true }
  else
    none

/-- The ready-wait continuation (lines 56–66), run after the 20s-bounded wait
settles.  `reachedReady` is whether `Ready` was entered before the deadline;
`statusAfterWait` is the connection's status observed after a timeout;
`destroyThrows` is whether `connection.destroy()` raises (the raise is
swallowed by the inner `try {} catch {}`).  The `finally` clears `readyLock`
on every path. -/
def connReadyWaitResume {α : Type} (reachedReady : Bool)
    (statusAfterWait : ConnStatus) (destroyThrows : Bool) (s1 : Session α) :
    Session α × List (Effect α) :=
  if reachedReady then
    ({ s1 with readyLock := false }, [.awaitReady])
  else if statusAfterWait ≠ .Destroyed then
    ({ s1 with readyLock := false }, [.awaitReady, .destroyConn])
  else
    ({ s1 with readyLock := false }, [.awaitReady])

/-- The whole connection `stateChange` handler (lines 36–68), dispatching on
the new status and composing the ready-wait phases. -/
def onConnStateChange {α : Type} (newStatus : ConnStatus)
    (reason : DisconnectReason) (closeCode : ℕ) (rejoinAttempts : ℕ)
    (reachedReady : Bool) (statusAfterWait : ConnStatus)
    (destroyThrows : Bool) (s : Session α) : Session α × List (Effect α) :=
  if newStatus = .Disconnected then
    onConnDisconnected reason closeCode rejoinAttempts s
  else
    match connReadyWaitBegin newStatus s with
    | some s1 => connReadyWaitResume reachedReady statusAfterWait destroyThrows s1
    | none => (s, [])

/-- The 🔇 mute-toggle reaction (lines 187–198): best-effort removal of the
triggering reaction, the `canModifyQueue` authorization check, flip `muted`,
then set the gain to 0 if now muted, else back to `volume / 100`, and notify. -/
def muteToggle {α : Type} (canModify : Bool) (s : Session α) :
    Session α × List (Effect α) :=
  if ¬canModify then
    (s, [.removeReaction])
  else
    let s1 := { s with muted := !s.muted }
    if s1.muted then
      (s1, [.removeReaction, .setVolumeLog 0, .sendMessage])
    else
      (s1, [.removeReaction, .setVolumeLog ((s1.volume : ℚ) / 100), .sendMessage])

/-- The 🔉 volume-down reaction (lines 200–209): remove the reaction, return
if `volume == 0`, authorization check, `volume = max(volume - 10, 0)`, apply
the gain, notify. -/
def volumeDown {α : Type} (canModify : Bool) (s : Session α) :
    Session α × List (Effect α) :=
  if s.volume = 0 then
    (s, [.removeReaction])
  else if ¬canModify then
    (s, [.removeReaction])
  else
    let v := max (s.volume - 10) 0
    ({ s with volume := v },
     [.removeReaction, .setVolumeLog ((v : ℚ) / 100), .sendMessage])

/-- The 🔊 volume-up reaction (lines 211–220): remove the reaction, return if
`volume == 100`, authorization check, `volume = min(volume + 10, 100)`, apply
the gain, notify. -/
def volumeUp {α : Type} (canModify : Bool) (s : Session α) :
    Session α × List (Effect α) :=
  if s.volume = 100 then
    (s, [.removeReaction])
  else if ¬canModify then
    (s, [.removeReaction])
  else
    let v := min (s.volume + 10) 100
    ({ s with volume := v },
     [.removeReaction, .setVolumeLog ((v : ℚ) / 100), .sendMessage])

/-- A volume control input. -/
inductive VolInput where
  | up
  | down
  deriving DecidableEq, Repr

/-- Apply one accepted (authorized) volume input to the session state. -/
def volStep {α : Type} (i : VolInput) (s : Session α) : Session α :=
  match i with
  | .up => (volumeUp true s).1
  | .down => (volumeDown true s).1

/-- Apply a sequence of accepted volume inputs, in order. -/
def applyVolInputs {α : Type} (l : List VolInput) (s : Session α) : Session α :=
  l.foldl (fun t i => volStep i t) s

/-- An operation neither reads nor writes the `muted` flag: its behaviour on a
state with `muted` overwritten is the same behaviour with `muted` carried
through untouched. -/
def MutedFrame {α : Type} (f : Session α → Session α × List (Effect α)) : Prop :=
  ∀ (s : Session α) (b : Bool),
    f { s with muted := b } = ({ (f s).1 with muted := b }, (f s).2)

/-- A fixed sample session over `ℕ` songs, used to instantiate theorems at
concrete inputs. -/
def base : Session ℕ :=
  { songs := [1, 2, 3], volume := 50, loop := false, muted := false,
    queueLock := false, readyLock := false, resource := some 1,
    playerStatus := .Idle, pruning := false }

/-- The sample session, currently playing. -/
def basePlaying : Session ℕ := { base with playerStatus := .Playing }

/-- The sample session, currently playing with `loop` enabled. -/
def baseLoopPlaying : Session ℕ :=
  { base with loop := true, playerStatus := .Playing }

/-- The sample session with `queueLock` held. -/
def baseLocked : Session ℕ := { base with queueLock := true }

/-- The sample session with `readyLock` held. -/
def baseReadyLocked : Session ℕ := { base with readyLock := true }

/-- The sample session, muted. -/
def baseMuted : Session ℕ := { base with muted := true }

/-- The sample session, muted, with volume 10. -/
def baseMutedTen : Session ℕ := { base with volume := 10, muted := true }

/-! ## Helper lemmas about `processQueue` -/

/-- On any state whose `queueLock` is held, `processQueueAux` returns at the
guard with no effects, for any positive fuel. -/
theorem processQueueAux_locked {α : Type} (oracle : ℕ → Bool) (fuel d : ℕ)
    (s : Session α) (h : s.queueLock = true) :
    processQueueAux oracle (fuel + 1) d s = some (s, []) := by
  simp [processQueueAux, h]

/-- Fuel 2 always suffices: the only recursive call runs with the lock held. -/
theorem processQueueAux_fuel {α : Type} (oracle : ℕ → Bool) (fuel d : ℕ)
    (s : Session α) :
    processQueueAux oracle (fuel + 2) d s = processQueueAux oracle 2 d s := by
  by_cases hg : s.queueLock ∨ s.playerStatus ≠ .Idle
  · simp [processQueueAux, hg]
  · rcases hs : s.songs with _ | ⟨next, rest⟩ <;>
      by_cases ho : oracle d <;>
        simp [processQueueAux, hg, hs, ho, processQueueAux_locked]

/-- `processQueueAux` with fuel 2 always returns. -/
theorem processQueueAux_two_isSome {α : Type} (oracle : ℕ → Bool) (d : ℕ)
    (s : Session α) : (processQueueAux oracle 2 d s).isSome := by
  by_cases hg : s.queueLock ∨ s.playerStatus ≠ .Idle
  · simp [processQueueAux, hg]
  · rcases hs : s.songs with _ | ⟨next, rest⟩ <;>
      by_cases ho : oracle d <;>
        simp [processQueueAux, hg, hs, ho, processQueueAux_locked]

/-- `processQueue` is the composition of its two phases: `Begin` up to the
suspension, then `Resume` with the oracle's outcome for the attempt. -/
theorem processQueue_eq_begin_resume {α : Type} (oracle : ℕ → Bool)
    (s : Session α) :
    processQueue oracle s =
      match processQueueBegin s with
      | .done s' effs => (s', effs)
      | .suspended s1 next =>
        let r := processQueueResume oracle s1 next (oracle 0)
        (r.1, .attemptResource next :: r.2) := by
  by_cases hg : s.queueLock ∨ s.playerStatus ≠ .Idle
  · simp [processQueue, processQueueAux, processQueueBegin, hg]
  · rcases hs : s.songs with _ | ⟨next, rest⟩
    · simp [processQueue, processQueueAux, processQueueBegin, hg, hs]
    · by_cases ho : oracle 0 <;>
        simp [processQueue, processQueueAux, processQueueBegin,
              processQueueResume, hg, hs, ho, processQueueAux_locked,
              Option.getD]

/-- When the guard fails — lock held or player not `Idle` — `processQueue`
returns its argument unchanged with no effects. -/
theorem processQueue_guard {α : Type} (oracle : ℕ → Bool) (s : Session α)
    (h : s.queueLock = true ∨ s.playerStatus ≠ .Idle) :
    processQueue oracle s = (s, []) := by
  rcases h with h | h <;> simp [processQueue, processQueueAux, h]

/-- With the guard open and an empty queue, `processQueue` stops the session. -/
theorem processQueue_empty {α : Type} (oracle : ℕ → Bool) (s : Session α)
    (hlk : s.queueLock = false) (hst : s.playerStatus = .Idle)
    (hs : s.songs = []) :
    processQueue oracle s = stop s := by
  simp [processQueue, processQueueAux, hlk, hst, hs]

/-- With the guard open, a non-empty queue, and a successful resource
creation, `processQueue` stores the resource, starts playback, applies the
gain, and releases the lock. -/
theorem processQueue_success {α : Type} (oracle : ℕ → Bool) (s : Session α)
    (next : α) (rest : List α) (hlk : s.queueLock = false)
    (hst : s.playerStatus = .Idle) (hs : s.songs = next :: rest)
    (ho : oracle 0 = true) :
    processQueue oracle s =
      ({ s with resource := some next, playerStatus := .Playing },
       [.attemptResource next, .play next,
        .setVolumeLog ((s.volume : ℚ) / 100)]) := by
  obtain ⟨songs, volume, lp, mu, qlk, rlk, res, pst, pr⟩ := s
  simp only at hlk hst hs
  subst hlk hst hs
  simp [processQueue, processQueueAux, ho]

/-- With the guard open, a non-empty queue, and a failing resource creation,
`processQueue` logs, re-invokes itself to no effect, and releases the lock:
the state is returned exactly as it was. -/
theorem processQueue_failure {α : Type} (oracle : ℕ → Bool) (s : Session α)
    (next : α) (rest : List α) (hlk : s.queueLock = false)
    (hst : s.playerStatus = .Idle) (hs : s.songs = next :: rest)
    (ho : oracle 0 = false) :
    processQueue oracle s = (s, [.attemptResource next, .logError]) := by
  obtain ⟨songs, volume, lp, mu, qlk, rlk, res, pst, pr⟩ := s
  simp only at hlk hst hs
  subst hlk hst hs
  simp [processQueue, processQueueAux, ho, processQueueAux_locked]

/-- `songs.push(songs.shift()!)` is a one-step left rotation. -/
theorem tail_append_take_one {α : Type} (l : List α) :
    l.tail ++ l.take 1 = l.rotate 1 := by
  cases l with
  | nil => simp
  | cons a t => simp [List.rotate_cons_succ]

/-! ## Helper lemmas about `completionStep` -/

/-- A normal completion with `loop` on and a non-empty queue rotates the queue
one step and leaves the session playing with the rotated head's resource;
volume, mute, loop, lock and pruning are untouched. -/
theorem completionStep_loop {α : Type} (s : Session α)
    (hl : s.loop = true) (hne : s.songs ≠ [])
    (hlk : s.queueLock = false) (hst : s.playerStatus = .Playing) :
    (completionStep s).songs = s.songs.rotate 1 ∧
    (completionStep s).loop = true ∧
    (completionStep s).queueLock = false ∧
    (completionStep s).playerStatus = .Playing ∧
    (completionStep s).volume = s.volume ∧
    (completionStep s).muted = s.muted := by
  obtain ⟨songs, volume, lp, mu, qlk, rlk, res, pst, pr⟩ := s
  simp only at hl hne hlk hst
  subst hl hlk hst
  cases songs with
  | nil => exact absurd rfl hne
  | cons h t =>
    cases t with
    | nil =>
      simp [completionStep, onPlayerStateChange, processQueue,
            processQueueAux, List.rotate_cons_succ]
    | cons h2 t2 =>
      simp [completionStep, onPlayerStateChange, processQueue,
            processQueueAux, List.rotate_cons_succ]

/-- Iterating normal completions with `loop` on rotates the queue one step per
completion. -/
theorem completionStep_iter_rotate {α : Type} :
    ∀ (n : ℕ) (s : Session α), s.loop = true → s.songs ≠ [] →
      s.queueLock = false → s.playerStatus = .Playing →
      (completionStep^[n] s).songs = s.songs.rotate n
  | 0, s, _, _, _, _ => by simp
  | n + 1, s, hl, hne, hlk, hst => by
    obtain ⟨hr, hl', hlk', hst', _, _⟩ := completionStep_loop s hl hne hlk hst
    have hne' : (completionStep s).songs ≠ [] := by
      rw [hr]
      intro hcontra
      exact hne (by simpa using congrArg List.length hcontra)
    rw [Function.iterate_succ_apply,
        completionStep_iter_rotate n (completionStep s) hl' hne' hlk' hst',
        hr, List.rotate_rotate, Nat.add_comm]

/-- A normal completion with `loop` off drops the queue head; if tracks
remain, the next one starts playing; if none remain but a resource is still
held, the session stops. -/
theorem completionStep_noloop {α : Type} (s : Session α)
    (hl : s.loop = false) (hlk : s.queueLock = false)
    (hst : s.playerStatus = .Playing) (hres : s.resource.isSome) :
    (completionStep s).songs = s.songs.tail ∧
    (completionStep s).loop = false ∧
    (completionStep s).queueLock = false ∧
    (completionStep s).resource.isSome ∧
    (completionStep s).playerStatus =
      (if s.songs.tail.isEmpty then .Idle else .Playing) := by
  obtain ⟨songs, volume, lp, mu, qlk, rlk, res, pst, pr⟩ := s
  simp only at hl hlk hst hres
  subst hl hlk hst
  obtain ⟨r, rfl⟩ := Option.isSome_iff_exists.mp hres
  cases songs with
  | nil =>
    simp [completionStep, onPlayerStateChange, processQueue,
          processQueueAux, stop]
  | cons h t =>
    cases t with
    | nil =>
      simp [completionStep, onPlayerStateChange, processQueue,
            processQueueAux, stop]
    | cons h2 t2 =>
      simp [completionStep, onPlayerStateChange, processQueue,
            processQueueAux]

/-- Iterating normal completions with `loop` off: each completion removes one
track, and the completion that empties the queue stops the session. -/
theorem completionStep_iter_noloop {α : Type} :
    ∀ (n : ℕ) (s : Session α), s.loop = false → s.songs.length = n + 1 →
      s.queueLock = false → s.playerStatus = .Playing → s.resource.isSome →
      (completionStep^[n + 1] s).songs = [] ∧
      (completionStep^[n + 1] s).loop = false ∧
      (completionStep^[n + 1] s).playerStatus = .Idle
  | 0, s, hl, hlen, hlk, hst, hres => by
    obtain ⟨h1, h2, h3, _, h5⟩ := completionStep_noloop s hl hlk hst hres
    have htail : s.songs.tail = [] := by
      have : s.songs.tail.length = 0 := by
        rw [List.length_tail, hlen]
      exact List.length_eq_zero.mp this
    rw [Function.iterate_one]
    refine ⟨h1.trans htail, h2, ?_⟩
    rw [h5, htail]
    simp
  | n + 1, s, hl, hlen, hlk, hst, hres => by
    obtain ⟨h1, h2, h3, h4, h5⟩ := completionStep_noloop s hl hlk hst hres
    have htail : ¬s.songs.tail.isEmpty := by
      rw [List.isEmpty_iff_length_eq_zero, List.length_tail, hlen]
      omega
    have hlen' : (completionStep s).songs.length = n + 1 := by
      rw [h1, List.length_tail, hlen]
      omega
    have hst' : (completionStep s).playerStatus = .Playing := by
      rw [h5, if_neg (by simpa using htail)]
    rw [Function.iterate_succ_apply]
    exact completionStep_iter_noloop n (completionStep s) h2 hlen' h3 hst' h4

/-! ## Helper lemmas about the volume controls -/

/-- One accepted volume input keeps the stored volume within `[0, 100]`. -/
theorem volStep_range {α : Type} (i : VolInput) (s : Session α)
    (h0 : 0 ≤ s.volume) (h1 : s.volume ≤ 100) :
    0 ≤ (volStep i s).volume ∧ (volStep i s).volume ≤ 100 := by
  cases i <;> simp only [volStep, volumeUp, volumeDown] <;> split_ifs <;>
    constructor <;> simp_all <;> omega

/-- Any sequence of accepted volume inputs keeps the volume within `[0, 100]`. -/
theorem applyVolInputs_range {α : Type} :
    ∀ (l : List VolInput) (s : Session α), 0 ≤ s.volume → s.volume ≤ 100 →
      0 ≤ (applyVolInputs l s).volume ∧ (applyVolInputs l s).volume ≤ 100
  | [], _, h0, h1 => ⟨h0, h1⟩
  | i :: l, s, h0, h1 => by
    obtain ⟨g0, g1⟩ := volStep_range i s h0 h1
    simpa [applyVolInputs, List.foldl_cons] using
      applyVolInputs_range l (volStep i s) g0 g1

/-! ## Helper lemmas about the `muted` flag -/

/-- `processQueueAux` neither reads nor writes `muted`. -/
theorem processQueueAux_muted {α : Type} (oracle : ℕ → Bool) :
    ∀ (fuel d : ℕ) (s : Session α) (b : Bool),
      processQueueAux oracle fuel d { s with muted := b } =
        (processQueueAux oracle fuel d s).map
          (fun r => ({ r.1 with muted := b }, r.2))
  | 0, _, _, _ => rfl
  | fuel + 1, d, s, b => by
    have ih := processQueueAux_muted oracle fuel (d + 1)
      { s with queueLock := true } b
    obtain ⟨songs, volume, lp, mu, qlk, rlk, res, pst, pr⟩ := s
    by_cases hg : qlk = true ∨ pst ≠ PlayerStatus.Idle
    · simp [processQueueAux, hg]
    · rcases songs with _ | ⟨next, rest⟩
      · simp [processQueueAux, hg, stop]
      · by_cases ho : oracle d
        · simp [processQueueAux, hg, ho]
        · simp only at ih
          rcases hx : processQueueAux oracle fuel (d + 1)
            ({ songs := next :: rest, volume := volume, loop := lp,
               muted := mu, queueLock := true, readyLock := rlk,
               resource := res, playerStatus := pst,
               pruning := pr } : Session α) with _ | ⟨s3, effs⟩ <;>
            simp [processQueueAux, hg, ho, hx] at ih ⊢ <;> simp [ih]

/-- `processQueue` neither reads nor writes `muted`. -/
theorem processQueue_muted {α : Type} (oracle : ℕ → Bool) :
    MutedFrame (processQueue (α := α) oracle) := by
  intro s b
  have h := processQueueAux_muted oracle 2 0 s b
  have h2 := processQueueAux_two_isSome oracle 0 s
  obtain ⟨r, hr⟩ := Option.isSome_iff_exists.mp h2
  simp [processQueue, h, hr]

/-- The player `stateChange` handler neither reads nor writes `muted`. -/
theorem onPlayerStateChange_muted {α : Type} (oracle : ℕ → Bool)
    (old new : PlayerStatus) :
    MutedFrame (onPlayerStateChange (α := α) oracle old new) := by
  intro s b
  have hpq := processQueue_muted (α := α) oracle
  obtain ⟨songs, volume, lp, mu, qlk, rlk, res, pst, pr⟩ := s
  by_cases h1a : old = PlayerStatus.Idle
  · by_cases h2 : old = PlayerStatus.Buffering ∧ new = PlayerStatus.Playing <;>
      simp [onPlayerStateChange, h1a, h2]
  · by_cases h1b : new = PlayerStatus.Idle
    · subst h1b
      by_cases h2 : (lp && !songs.isEmpty) = true
      · by_cases h3 :
            (!(songs.tail ++ songs.take 1).isEmpty || res.isSome) = true
        · have := hpq ⟨songs.tail ++ songs.take 1, volume, lp, mu, qlk, rlk,
            res, PlayerStatus.Idle, pr⟩ b
          simp [onPlayerStateChange, h1a, h2, h3] at this ⊢
          exact this
        · simp [onPlayerStateChange, h1a, h2, h3]
      · by_cases h3 : (!songs.tail.isEmpty || res.isSome) = true
        · have := hpq ⟨songs.tail, volume, lp, mu, qlk, rlk,
            res, PlayerStatus.Idle, pr⟩ b
          simp [onPlayerStateChange, h1a, h2, h3] at this ⊢
          exact this
        · simp [onPlayerStateChange, h1a, h2, h3]
    · by_cases h2 : old = PlayerStatus.Buffering ∧ new = PlayerStatus.Playing <;>
        simp [onPlayerStateChange, h1a, h1b, h2]

/-- The player `error` handler neither reads nor writes `muted`. -/
theorem onPlayerError_muted {α : Type} (oracle : ℕ → Bool) :
    MutedFrame (onPlayerError (α := α) oracle) := by
  intro s b
  have hpq := processQueue_muted (α := α) oracle
  obtain ⟨songs, volume, lp, mu, qlk, rlk, res, pst, pr⟩ := s
  by_cases h2 : (lp && !songs.isEmpty) = true
  · have := hpq ⟨songs.tail ++ songs.take 1, volume, lp, mu, qlk, rlk,
      res, pst, pr⟩ b
    simp only [onPlayerError, h2] at this ⊢
    simp [this]
  · have := hpq ⟨songs.tail, volume, lp, mu, qlk, rlk, res, pst, pr⟩ b
    simp only [onPlayerError, h2] at this ⊢
    simp [this]

/-- `enqueue` neither reads nor writes `muted`. -/
theorem enqueue_muted {α : Type} (oracle : ℕ → Bool) (newSongs : List α) :
    MutedFrame (enqueue (α := α) oracle newSongs) := by
  intro s b
  have := processQueue_muted (α := α) oracle { s with songs := s.songs ++ newSongs } b
  simp_all [enqueue]

/-- `stop` neither reads nor writes `muted`. -/
theorem stop_muted {α : Type} : MutedFrame (stop (α := α)) := by
  intro s b
  simp [stop]

/-- The `Disconnected` handler neither reads nor writes `muted`. -/
theorem onConnDisconnected_muted {α : Type} (reason : DisconnectReason)
    (closeCode rejoinAttempts : ℕ) :
    MutedFrame (onConnDisconnected (α := α) reason closeCode rejoinAttempts) := by
  intro s b
  by_cases h1 : reason = DisconnectReason.WebSocketClose ∧ closeCode = 4014 <;>
    by_cases h2 : rejoinAttempts < 5 <;>
      simp [onConnDisconnected, stop, h1, h2]

/-- The ready-wait continuation neither reads nor writes `muted`. -/
theorem connReadyWaitResume_muted {α : Type} (reached : Bool)
    (after : ConnStatus) (dt : Bool) :
    MutedFrame (connReadyWaitResume (α := α) reached after dt) := by
  intro s b
  cases reached <;> by_cases h : after = ConnStatus.Destroyed <;>
    simp [connReadyWaitResume, h]

/-- The ready-wait entry neither reads nor writes `muted`. -/
theorem connReadyWaitBegin_muted {α : Type} (newStatus : ConnStatus)
    (s : Session α) (b : Bool) :
    connReadyWaitBegin newStatus { s with muted := b } =
      (connReadyWaitBegin newStatus s).map (fun t => { t with muted := b }) := by
  by_cases h : ¬s.readyLock ∧
      (newStatus = ConnStatus.Connecting ∨ newStatus = ConnStatus.Signalling) <;>
    simp [connReadyWaitBegin, h]

/-- The whole connection `stateChange` handler neither reads nor writes
`muted`. -/
theorem onConnStateChange_muted {α : Type} (newStatus : ConnStatus)
    (reason : DisconnectReason) (closeCode rejoinAttempts : ℕ)
    (reached : Bool) (after : ConnStatus) (dt : Bool) :
    MutedFrame (onConnStateChange (α := α) newStatus reason closeCode
      rejoinAttempts reached after dt) := by
  intro s b
  by_cases h1 : newStatus = ConnStatus.Disconnected
  · simpa [onConnStateChange, h1] using
      onConnDisconnected_muted reason closeCode rejoinAttempts s b
  · have hb := connReadyWaitBegin_muted newStatus s b
    rcases hx : connReadyWaitBegin newStatus s with _ | s1
    · simp_all [onConnStateChange]
    · have := connReadyWaitResume_muted (α := α) reached after dt s1 b
      simp_all [onConnStateChange]

/-- `volumeUp` neither reads nor writes `muted`. -/
theorem volumeUp_muted {α : Type} (cm : Bool) :
    MutedFrame (volumeUp (α := α) cm) := by
  intro s b
  by_cases h1 : s.volume = 100 <;> cases cm <;> simp [volumeUp, h1]

/-- `volumeDown` neither reads nor writes `muted`. -/
theorem volumeDown_muted {α : Type} (cm : Bool) :
    MutedFrame (volumeDown (α := α) cm) := by
  intro s b
  by_cases h1 : s.volume = 0 <;> cases cm <;> simp [volumeDown, h1]

/-! ## Claims -/

/-- C1: An invocation of `processQueue` returns without calling `play` and
without mutating any session state when `queueLock` is true or the player's
status is not `Idle`; consequently, when a second invocation arrives while the
first is suspended awaiting resource creation (with `queueLock` held), the
second returns immediately and only the first invocation can call `play`:
across the whole two-invocation schedule exactly one `play` is observed when
the creation succeeds, none when it fails. -/
theorem c1_processQueue_serialized {α : Type} (oracle oracle2 : ℕ → Bool)
    (s : Session α) :
    (s.queueLock = true ∨ s.playerStatus ≠ .Idle →
      processQueue oracle s = (s, [])) ∧
    (∀ (next : α) (rest : List α),
      s.queueLock = false → s.playerStatus = .Idle → s.songs = next :: rest →
      processQueueBegin s = .suspended { s with queueLock := true } next ∧
      processQueue oracle2 { s with queueLock := true } =
        ({ s with queueLock := true }, []) ∧
      (twoInvocationRun oracle oracle2 s).2.countP (fun e => e.isPlay) =
        (if oracle 0 then 1 else 0)) := by
  constructor
  · exact processQueue_guard oracle s
  · intro next rest hlk hst hs
    have hbegin : processQueueBegin s = .suspended { s with queueLock := true } next := by
      simp [processQueueBegin, hlk, hst, hs]
    have hsecond : processQueue oracle2 { s with queueLock := true } =
        ({ s with queueLock := true }, []) :=
      processQueue_guard oracle2 _ (Or.inl rfl)
    refine ⟨hbegin, hsecond, ?_⟩
    by_cases ho : oracle 0 <;>
      · simp only [twoInvocationRun, hbegin, hsecond, processQueueResume, ho]
        simp [processQueue_guard oracle _ (Or.inl (rfl :
          ({ s with queueLock := true } : Session α).queueLock = true)),
          Effect.isPlay, List.countP_cons]

/-- C1 witness: at a locked session the invocation is a pure no-op, and in the
suspension schedule on an open session with two queued tracks exactly one
`play` is observed. -/
theorem c1_witness :
    processQueue (fun _ => true) baseLocked = (baseLocked, []) ∧
    (twoInvocationRun (fun _ => true) (fun _ => true) base).2.countP
      (fun e => e.isPlay) = 1 := by
  refine ⟨(c1_processQueue_serialized (fun _ => true) (fun _ => true)
    baseLocked).1 (Or.inl rfl), ?_⟩
  have h := ((c1_processQueue_serialized (fun _ => true) (fun _ => true)
    base).2 1 [2, 3] rfl rfl rfl).2.2
  simpa using h

/-- C2: on a non-Idle → Idle player transition with `loop` enabled and a
non-empty queue, the head moves to the tail with all other elements kept in
order; with `N ≥ 2` tracks, `N` consecutive normal completions restore the
original queue order. -/
theorem c2_loop_round_robin {α : Type} (s : Session α) (N : ℕ)
    (hl : s.loop = true) (hlen : s.songs.length = N) (hN : 2 ≤ N)
    (hlk : s.queueLock = false) (hst : s.playerStatus = .Playing) :
    (completionStep s).songs = s.songs.tail ++ s.songs.take 1 ∧
    (completionStep^[N] s).songs = s.songs := by
  have hne : s.songs ≠ [] := by
    intro h
    rw [h] at hlen
    simp at hlen
    omega
  constructor
  · rw [(completionStep_loop s hl hne hlk hst).1, tail_append_take_one]
  · rw [completionStep_iter_rotate N s hl hne hlk hst, ← hlen,
        List.rotate_length]

/-- C2 witness: three completions of a looped three-track queue restore the
original order, and one completion rotates the head to the tail. -/
theorem c2_witness :
    (completionStep baseLoopPlaying).songs = [2, 3, 1] ∧
    (completionStep^[3] baseLoopPlaying).songs = [1, 2, 3] := by
  have h := c2_loop_round_robin baseLoopPlaying 3 rfl rfl (by norm_num) rfl rfl
  exact ⟨by rw [h.1]; rfl, by rw [h.2]; rfl⟩

/-- C3: on a connection transition into `Disconnected`: a WebSocket close
with code 4014 stops the session (loop disabled, queue cleared, player
halted) and never calls `rejoin`; otherwise with `rejoinAttempts < 5` the
handler waits `(rejoinAttempts + 1) * 5` seconds and then calls `rejoin`;
otherwise it calls `destroy` exactly once. -/
theorem c3_disconnect_policy {α : Type} (s : Session α)
    (reason : DisconnectReason) (closeCode rejoinAttempts : ℕ) :
    (reason = .WebSocketClose ∧ closeCode = 4014 →
      onConnDisconnected reason closeCode rejoinAttempts s =
        ({ s with loop := false, songs := [], playerStatus := .Idle },
         .stopPlayer :: if s.pruning then [] else [.sendQueueEnded]) ∧
      Effect.rejoin ∉ (onConnDisconnected reason closeCode rejoinAttempts s).2) ∧
    (¬(reason = .WebSocketClose ∧ closeCode = 4014) → rejoinAttempts < 5 →
      onConnDisconnected reason closeCode rejoinAttempts s =
        (s, [.wait ((rejoinAttempts + 1) * 5000), .rejoin])) ∧
    (¬(reason = .WebSocketClose ∧ closeCode = 4014) → 5 ≤ rejoinAttempts →
      onConnDisconnected reason closeCode rejoinAttempts s =
        (s, [.destroyConn]) ∧
      (onConnDisconnected reason closeCode rejoinAttempts s).2.countP
        (fun e => e.isDestroy) = 1) := by
  refine ⟨fun h => ⟨?_, ?_⟩, fun h h5 => ?_, fun h h5 => ⟨?_, ?_⟩⟩
  · simp [onConnDisconnected, h.1, h.2, stop]
  · rcases hp : s.pruning <;>
      simp [onConnDisconnected, h.1, h.2, stop, hp]
  · unfold onConnDisconnected
    rw [if_neg h, if_pos h5]
  · unfold onConnDisconnected
    rw [if_neg h, if_neg (Nat.not_lt.mpr h5)]
  · unfold onConnDisconnected
    rw [if_neg h, if_neg (Nat.not_lt.mpr h5)]
    simp [Effect.isDestroy]

/-- C3 witness: the three branches at concrete inputs — terminal close code
4014, a recoverable disconnect with 2 prior attempts (15s backoff), and an
exhausted disconnect with 5 attempts (single destroy). -/
theorem c3_witness :
    onConnDisconnected .WebSocketClose 4014 0 base =
      ({ base with loop := false, songs := [], playerStatus := .Idle },
       [.stopPlayer, .sendQueueEnded]) ∧
    onConnDisconnected .Other 1000 2 base =
      (base, [.wait 15000, .rejoin]) ∧
    onConnDisconnected .Other 1000 5 base = (base, [.destroyConn]) := by
  refine ⟨?_, ?_, ?_⟩
  · have h := (c3_disconnect_policy base .WebSocketClose 4014 0).1 ⟨rfl, rfl⟩
    rw [h.1]; rfl
  · have h := (c3_disconnect_policy base .Other 1000 2).2.1
      (by simp) (by norm_num)
    rw [h]
  · exact ((c3_disconnect_policy base .Other 1000 5).2.2
      (by simp) (by norm_num)).1

/-- C4: with `loop` disabled every completion removes the queue head; for a
playing session with `N ≥ 1` tracks, after `N` completions the queue is empty
and the session has stopped: loop disabled, queue cleared, player halted. -/
theorem c4_noloop_drains {α : Type} (s : Session α) (N : ℕ)
    (hl : s.loop = false) (hlen : s.songs.length = N) (hN : 1 ≤ N)
    (hlk : s.queueLock = false) (hst : s.playerStatus = .Playing)
    (hres : s.resource.isSome) :
    (completionStep s).songs = s.songs.tail ∧
    (completionStep^[N] s).songs = [] ∧
    (completionStep^[N] s).loop = false ∧
    (completionStep^[N] s).playerStatus = .Idle := by
  obtain ⟨n, rfl⟩ : ∃ n, N = n + 1 := ⟨N - 1, by omega⟩
  obtain ⟨h1, h2, h3⟩ := completionStep_iter_noloop n s hl hlen hlk hst hres
  exact ⟨(completionStep_noloop s hl hlk hst hres).1, h1, h2, h3⟩

/-- C4 witness: a playing three-track session with loop off is drained and
stopped by three completions. -/
theorem c4_witness :
    (completionStep^[3] { base with playerStatus := .Playing }).songs = [] ∧
    (completionStep^[3] { base with playerStatus := .Playing }).loop
      = false ∧
    (completionStep^[3]
      { base with playerStatus := .Playing }).playerStatus = .Idle := by
  have h := c4_noloop_drains { base with playerStatus := .Playing } 3
    rfl rfl (by norm_num) rfl rfl rfl
  exact ⟨h.2.1, h.2.2.1, h.2.2.2⟩

/-- C5: when the resource-creation attempt for the queue head fails, the
error is logged and `processQueue` re-invokes itself to no further effect;
the failed track is still at the head of the queue afterwards, and
`queueLock` is false after the invocation completes on the failure path as
on the success path. -/
theorem c5_failure_releases_lock {α : Type} (oracle : ℕ → Bool)
    (s : Session α) (next : α) (rest : List α) (hlk : s.queueLock = false)
    (hst : s.playerStatus = .Idle) (hs : s.songs = next :: rest) :
    (oracle 0 = false →
      processQueue oracle s = (s, [.attemptResource next, .logError])) ∧
    (oracle 0 = true →
      processQueue oracle s =
        ({ s with resource := some next, playerStatus := .Playing },
         [.attemptResource next, .play next,
          .setVolumeLog ((s.volume : ℚ) / 100)])) ∧
    (oracle 0 = false → Effect.logError ∈ (processQueue oracle s).2) ∧
    (processQueue oracle s).1.songs = next :: rest ∧
    (processQueue oracle s).1.queueLock = false := by
  refine ⟨fun ho => processQueue_failure oracle s next rest hlk hst hs ho,
          fun ho => processQueue_success oracle s next rest hlk hst hs ho,
          fun ho => ?_, ?_, ?_⟩
  · rw [processQueue_failure oracle s next rest hlk hst hs ho]
    simp
  · by_cases ho : oracle 0
    · rw [processQueue_success oracle s next rest hlk hst hs ho]
      simpa using hs
    · rw [processQueue_failure oracle s next rest hlk hst hs
        (Bool.not_eq_true _ ▸ ho)]
      simpa using hs
  · by_cases ho : oracle 0
    · rw [processQueue_success oracle s next rest hlk hst hs ho]
      simpa using hlk
    · rw [processQueue_failure oracle s next rest hlk hst hs
        (Bool.not_eq_true _ ▸ ho)]
      exact hlk

/-- C5 witness: a failing attempt on the sample session logs, keeps the
queue intact, and leaves the lock released. -/
theorem c5_witness :
    processQueue (fun _ => false) base =
      (base, [.attemptResource 1, .logError]) ∧
    (processQueue (fun _ => false) base).1.queueLock = false := by
  have h := c5_failure_releases_lock (fun _ => false) base 1 [2, 3]
    rfl rfl rfl
  exact ⟨h.1 rfl, h.2.2.2.2⟩

/-- C6: the ready-wait is entered only when `readyLock` is false, and entering
it sets `readyLock`; `readyLock` is false again after the continuation exits
on every path; on timeout `destroy` is called exactly when the connection is
not already `Destroyed`; and a `destroy` that raises does not propagate (the
outcome is identical whether `destroy` raises or not). -/
theorem c6_readyLock_discipline {α : Type} (s s1 : Session α)
    (newStatus : ConnStatus) (reason : DisconnectReason)
    (closeCode rejoinAttempts : ℕ) (reached : Bool) (after : ConnStatus) :
    (connReadyWaitBegin newStatus s = some s1 →
      s.readyLock = false ∧
      (newStatus = .Connecting ∨ newStatus = .Signalling) ∧
      s1 = { s with readyLock := true }) ∧
    (s.readyLock = true → newStatus ≠ .Disconnected →
      ∀ dt, onConnStateChange newStatus reason closeCode rejoinAttempts
        reached after dt s = (s, [])) ∧
    (∀ dt, (connReadyWaitResume reached after dt s1).1.readyLock = false) ∧
    (∀ dt, Effect.destroyConn ∈ (connReadyWaitResume reached after dt s1).2 ↔
      reached = false ∧ after ≠ .Destroyed) ∧
    connReadyWaitResume reached after true s1 =
      connReadyWaitResume reached after false s1 := by
  refine ⟨?_, ?_, ?_, ?_, rfl⟩
  · intro h
    unfold connReadyWaitBegin at h
    by_cases hc : ¬s.readyLock ∧
        (newStatus = ConnStatus.Connecting ∨ newStatus = ConnStatus.Signalling)
    · rw [if_pos hc] at h
      exact ⟨by simpa using hc.1, hc.2, (Option.some_inj.mp h).symm⟩
    · rw [if_neg hc] at h
      exact absurd h (by simp)
  · intro hrl hns dt
    have hb : connReadyWaitBegin newStatus s = none := by
      simp [connReadyWaitBegin, hrl]
    simp [onConnStateChange, hns, hb]
  · intro dt
    cases reached <;> by_cases hd : after = ConnStatus.Destroyed <;>
      simp [connReadyWaitResume, hd]
  · intro dt
    cases reached <;> by_cases hd : after = ConnStatus.Destroyed <;>
      simp [connReadyWaitResume, hd]

/-- C6 witness: on the sample session a transition into `Connecting` enters
the wait (the suspended state has `readyLock` set); with `readyLock` already
held the handler is a no-op; and the continuation leaves `readyLock` false
after a timeout. -/
theorem c6_witness :
    base.readyLock = false ∧
    baseReadyLocked = { base with readyLock := true } ∧
    onConnStateChange .Connecting .Other 0 0 true .Ready true
      baseReadyLocked = (baseReadyLocked, []) ∧
    (connReadyWaitResume false .Ready true baseReadyLocked).1.readyLock
      = false := by
  have h := c6_readyLock_discipline base baseReadyLocked .Connecting .Other
    0 0 false .Ready
  have h1 := h.1 rfl
  have h2 := c6_readyLock_discipline baseReadyLocked baseReadyLocked
    .Connecting .Other 0 0 true .Ready
  exact ⟨h1.1, h1.2.2, h2.2.1 rfl (by simp) true,
    (c6_readyLock_discipline base baseReadyLocked .Connecting .Other 0 0
      false .Ready).2.2.1 true⟩

/-- C7: under accepted volume inputs the stored volume stays in `[0, 100]`:
volume-down is a pure no-op (beyond the reaction removal) at volume 0 and
otherwise sets `max(volume - 10, 0)`; volume-up is a pure no-op at volume 100
and otherwise sets `min(volume + 10, 100)`; five volume-ups from 50 end at
100, five volume-downs from 20 end at 0, and a sixth volume-down is a no-op. -/
theorem c7_volume_bounds {α : Type} (s : Session α) (l : List VolInput)
    (h0 : 0 ≤ s.volume) (h100 : s.volume ≤ 100) :
    (0 ≤ (applyVolInputs l s).volume ∧ (applyVolInputs l s).volume ≤ 100) ∧
    (∀ cm, s.volume = 0 → volumeDown cm s = (s, [.removeReaction])) ∧
    (s.volume ≠ 0 → volumeDown true s =
      ({ s with volume := max (s.volume - 10) 0 },
       [.removeReaction,
        .setVolumeLog (((max (s.volume - 10) 0 : ℤ) : ℚ) / 100),
        .sendMessage])) ∧
    (∀ cm, s.volume = 100 → volumeUp cm s = (s, [.removeReaction])) ∧
    (s.volume ≠ 100 → volumeUp true s =
      ({ s with volume := min (s.volume + 10) 100 },
       [.removeReaction,
        .setVolumeLog (((min (s.volume + 10) 100 : ℤ) : ℚ) / 100),
        .sendMessage])) ∧
    (applyVolInputs [.up, .up, .up, .up, .up]
      { s with volume := 50 }).volume = 100 ∧
    (applyVolInputs [.down, .down, .down, .down, .down]
      { s with volume := 20 }).volume = 0 ∧
    (volumeDown true (applyVolInputs [.down, .down, .down, .down, .down]
        { s with volume := 20 }) =
      (applyVolInputs [.down, .down, .down, .down, .down]
        { s with volume := 20 }, [.removeReaction])) := by
  have five_down : (applyVolInputs [.down, .down, .down, .down, .down]
      { s with volume := 20 }).volume = 0 := by
    norm_num [applyVolInputs, volStep, volumeDown, List.foldl]
  refine ⟨applyVolInputs_range l s h0 h100,
          fun cm hv => by simp [volumeDown, hv],
          fun hv => by simp [volumeDown, hv],
          fun cm hv => by simp [volumeUp, hv],
          fun hv => by simp [volumeUp, hv],
          ?_, five_down, ?_⟩
  · norm_num [applyVolInputs, volStep, volumeUp, List.foldl]
  · simp [volumeDown, five_down]

/-- C7 witness: the bounds and the concrete clamp scenarios at the sample
session (volume 50). -/
theorem c7_witness :
    (0 ≤ (applyVolInputs [.up, .down] base).volume ∧
      (applyVolInputs [.up, .down] base).volume ≤ 100) ∧
    (applyVolInputs [.up, .up, .up, .up, .up]
      { base with volume := 50 }).volume = 100 ∧
    (applyVolInputs [.down, .down, .down, .down, .down]
      { base with volume := 20 }).volume = 0 := by
  have h := c7_volume_bounds base [.up, .down] (by decide) (by decide)
  exact ⟨h.1, h.2.2.2.2.2.1, h.2.2.2.2.2.2.1⟩

/-- C8: an accepted mute-toggle flips `muted` and leaves the stored volume
unchanged; the gain applied is 0 when the flag becomes true and
`volume / 100` when it becomes false, so toggling twice restores the exact
pre-mute state and applies the exact pre-mute gain. -/
theorem c8_mute_toggle_involutive {α : Type} (s : Session α) :
    ((muteToggle true s).1.muted = !s.muted) ∧
    ((muteToggle true s).1.volume = s.volume) ∧
    ((muteToggle true s).2 =
      [.removeReaction,
       .setVolumeLog (if s.muted then ((s.volume : ℚ) / 100) else 0),
       .sendMessage]) ∧
    ((muteToggle true (muteToggle true s).1).1 = s) ∧
    ((muteToggle true (muteToggle true s).1).2 =
      [.removeReaction,
       .setVolumeLog (if s.muted then 0 else ((s.volume : ℚ) / 100)),
       .sendMessage]) := by
  obtain ⟨songs, volume, lp, mu, qlk, rlk, res, pst, pr⟩ := s
  cases mu <;> simp [muteToggle]

/-- C9: the recursive re-invocation on resource-creation failure runs while
`queueLock` is still held, so it returns immediately without any state
change; consequently fuel 2 computes `processQueue` exactly (recursion depth
is bounded by one for any larger fuel) and a single trigger performs at most
one resource-creation attempt. -/
theorem c9_retry_depth_bounded {α : Type} (oracle : ℕ → Bool)
    (s : Session α) (fuel : ℕ) (hf : 2 ≤ fuel) :
    processQueueAux oracle fuel 0 s = some (processQueue oracle s) ∧
    (∀ (d : ℕ) (s' : Session α), s'.queueLock = true →
      processQueueAux oracle fuel d s' = some (s', [])) ∧
    (processQueue oracle s).2.countP (fun e => e.isAttempt) ≤ 1 := by
  obtain ⟨k, rfl⟩ : ∃ k, fuel = k + 2 := ⟨fuel - 2, by omega⟩
  refine ⟨?_, ?_, ?_⟩
  · have h2 := processQueueAux_two_isSome oracle 0 s
    obtain ⟨r, hr⟩ := Option.isSome_iff_exists.mp h2
    rw [processQueueAux_fuel, hr]
    simp [processQueue, hr]
  · intro d s' h
    exact processQueueAux_locked oracle (k + 1) d s' h
  · by_cases hg : s.queueLock = true ∨ s.playerStatus ≠ .Idle
    · rw [processQueue_guard oracle s hg]
      simp
    · push_neg at hg
      have hlk : s.queueLock = false := by
        simpa using hg.1
      have hst : s.playerStatus = .Idle := hg.2
      rcases hs : s.songs with _ | ⟨next, rest⟩
      · rw [processQueue_empty oracle s hlk hst hs]
        rcases hp : s.pruning <;>
          simp [stop, hp, Effect.isAttempt, List.countP_cons]
      · by_cases ho : oracle 0
        · rw [processQueue_success oracle s next rest hlk hst hs ho]
          simp [Effect.isAttempt, List.countP_cons]
        · rw [processQueue_failure oracle s next rest hlk hst hs
            (Bool.not_eq_true _ ▸ ho)]
          simp [Effect.isAttempt, List.countP_cons]

/-- C9 witness: with fuel 2 the failing run on the sample session computes
fully, the locked session is returned unchanged at depth 1, and the run
performs exactly one creation attempt. -/
theorem c9_witness :
    processQueueAux (fun _ => false) 2 0 base =
      some (processQueue (fun _ => false) base) ∧
    processQueueAux (fun _ => false) 2 1 baseLocked =
      some (baseLocked, []) ∧
    (processQueue (fun _ => false) base).2.countP
      (fun e => e.isAttempt) ≤ 1 := by
  have h := c9_retry_depth_bounded (fun _ => false) base 2 (by norm_num)
  exact ⟨h.1, h.2.1 1 baseLocked rfl, h.2.2⟩

/-- C10 counterexample: at stored volume 10 while muted, an accepted
volume-down leaves `muted` set but applies the gain `0 / 100 = 0` — a zero
gain — to the resource, refuting the claimed "non-zero gain `volume / 100`"
at this input. -/
theorem c10_counterexample :
    (volumeDown true baseMutedTen).1.muted = true ∧
    (volumeDown true baseMutedTen).1.volume = 0 ∧
    (volumeDown true baseMutedTen).2 =
      [.removeReaction, .setVolumeLog 0, .sendMessage] := by
  refine ⟨rfl, rfl, ?_⟩
  norm_num [volumeDown, baseMutedTen, base]

/-- C10 (amended): an accepted volume-up or volume-down while muted applies
the new gain `volume / 100` to the resource and leaves `muted` set to true;
the gain is non-zero for volume-up (given a non-negative volume), but is zero
when a volume-down lands exactly on volume 0; and no modelled operation other
than the mute-toggle reads or writes the `muted` flag. -/
theorem c10_amended_muted_frame {α : Type} (oracle : ℕ → Bool)
    (old new : PlayerStatus) (newSongs : List α) (reason : DisconnectReason)
    (closeCode rejoinAttempts : ℕ) (newStatus : ConnStatus)
    (reached : Bool) (after : ConnStatus) (dt cm : Bool)
    (s : Session α) (hm : s.muted = true) :
    (s.volume ≠ 100 → 0 ≤ s.volume →
      (volumeUp true s).1.muted = true ∧
      (volumeUp true s).2 =
        [.removeReaction,
         .setVolumeLog (((min (s.volume + 10) 100 : ℤ) : ℚ) / 100),
         .sendMessage] ∧
      (((min (s.volume + 10) 100 : ℤ) : ℚ) / 100) ≠ 0) ∧
    (s.volume ≠ 0 →
      (volumeDown true s).1.muted = true ∧
      (volumeDown true s).2 =
        [.removeReaction,
         .setVolumeLog (((max (s.volume - 10) 0 : ℤ) : ℚ) / 100),
         .sendMessage]) ∧
    MutedFrame (processQueue (α := α) oracle) ∧
    MutedFrame (onPlayerStateChange (α := α) oracle old new) ∧
    MutedFrame (onPlayerError (α := α) oracle) ∧
    MutedFrame (enqueue (α := α) oracle newSongs) ∧
    MutedFrame (stop (α := α)) ∧
    MutedFrame (onConnDisconnected (α := α) reason closeCode
      rejoinAttempts) ∧
    MutedFrame (onConnStateChange (α := α) newStatus reason closeCode
      rejoinAttempts reached after dt) ∧
    MutedFrame (volumeUp (α := α) cm) ∧
    MutedFrame (volumeDown (α := α) cm) := by
  refine ⟨fun hv h0 => ⟨?_, ?_, ?_⟩, fun hv => ⟨?_, ?_⟩,
    processQueue_muted oracle, onPlayerStateChange_muted oracle old new,
    onPlayerError_muted oracle, enqueue_muted oracle newSongs, stop_muted,
    onConnDisconnected_muted reason closeCode rejoinAttempts,
    onConnStateChange_muted newStatus reason closeCode rejoinAttempts
      reached after dt,
    volumeUp_muted cm, volumeDown_muted cm⟩
  · simp [volumeUp, hv, hm]
  · simp [volumeUp, hv]
  · have h1 : (0 : ℤ) < min (s.volume + 10) 100 :=
      lt_min (by omega) (by norm_num)
    have h2 : (0 : ℚ) < ((min (s.volume + 10) 100 : ℤ) : ℚ) := by
      exact_mod_cast h1
    have h3 : (0 : ℚ) < ((min (s.volume + 10) 100 : ℤ) : ℚ) / 100 :=
      div_pos h2 (by norm_num)
    exact ne_of_gt h3
  · simp [volumeDown, hv, hm]
  · simp [volumeDown, hv]

/-- C10 witness: on the muted sample session both accepted volume moves keep
`muted` set, and `stop` satisfies the muted-frame property. -/
theorem c10_witness :
    (volumeUp true baseMuted).1.muted = true ∧
    (volumeDown true baseMuted).1.muted = true ∧
    MutedFrame (stop (α := ℕ)) := by
  have h := c10_amended_muted_frame (α := ℕ) (fun _ => true) .Playing .Idle
    [] .Other 0 0 .Connecting true .Ready true true baseMuted rfl
  exact ⟨(h.1 (by decide) (by decide)).1, (h.2.1 (by decide)).1,
    h.2.2.2.2.2.2.1⟩

end MusicQueue
